import Mathlib

set_option maxRecDepth 4000

/- Verification of the subword tokenization pipeline (sebpuetz/tokenizers).

The development shallowly embeds the parts of the Rust source needed by the
specification's claims: the WordPiece model (src/tokenizers/src/models/wordpiece/mod.rs),
the BPE cache (src/tokenizers/src/models/bpe/cache.rs), the Metaspace pre-tokenizer
(src/tokenizers/src/pre_tokenizers/metaspace.rs), and decode / encode_batch /
post_process / deserialization from src/tokenizers/src/tokenizer/.

Machine integers (usize, u32) are modelled as Nat; a Rust panic (slice index out of
bounds, checked subtraction overflow) is modelled as an explicit error value so that
safety claims can be stated.  Rust strings are modelled as Lean strings, with byte
indexing carried out over the underlying character list using UTF-8 character sizes. -/

/-- `Token` from src/tokenizers/src/tokenizer/mod.rs (fields id, value, offsets, word). -/
structure Token where
  id : Nat
  value : String
  offsets : Nat × Nat
  word : Nat
deriving DecidableEq

/-- Outcomes of `WordPiece::tokenize` beyond a token list.  `missingUnkToken` is the
`Error::MissingUnkToken` value; `panicked` models a Rust panic (byte-slice out of
bounds, non-boundary slicing, or usize subtraction overflow); `outOfFuel` marks a
run of the source's `while` loop that never terminates. -/
inductive WpError where
  | missingUnkToken
  | panicked
  | outOfFuel
deriving DecidableEq

/-- `WordPiece` model state from src/tokenizers/src/models/wordpiece/mod.rs.  The
`vocab` HashMap is modelled as its lookup function. -/
structure WordPiece where
  vocab : String → Option Nat
  unkToken : String
  continuingSubwordPrefix : String
  maxInputCharsPerWord : Nat

/-- Total UTF-8 byte length of a character list (Rust `str::len`). -/
def utf8Len : List Char → Nat
  | [] => 0
  | c :: cs => c.utf8Size + utf8Len cs

/-- Byte indices at which each character starts, offset by `acc`
(Rust `str::char_indices`). -/
def charStartsAux : List Char → Nat → List Nat
  | [], _ => []
  | c :: cs, acc => acc :: charStartsAux cs (acc + c.utf8Size)

/-- First `n` bytes of a string given as characters (Rust `&s[..n]`): `none` models the
panic when `n` is not a character boundary or exceeds the length. -/
def byteTake : List Char → Nat → Option (List Char)
  | _, 0 => some []
  | [], _ + 1 => none
  | c :: cs, n + 1 =>
    if c.utf8Size ≤ n + 1 then (byteTake cs (n + 1 - c.utf8Size)).map (c :: ·) else none

/-- Drop the first `n` bytes of a string given as characters (Rust `&s[n..]`): `none`
models the panic when `n` is not a character boundary or exceeds the length. -/
def byteDrop : List Char → Nat → Option (List Char)
  | cs, 0 => some cs
  | [], _ + 1 => none
  | c :: cs, n + 1 =>
    if c.utf8Size ≤ n + 1 then byteDrop cs (n + 1 - c.utf8Size) else none

/-- The inner `for end in chars.iter().rev()` loop of `WordPiece::tokenize`
(src/tokenizers/src/models/wordpiece/mod.rs lines 239-250): scan candidate end
positions, looking `substr[..end-start]` up in the vocabulary.  Outer `none` models a
panic (`end - start` underflows when `end < start`, or the slice is out of bounds);
`some none` means no candidate matched; `some (some (idx, e))` is the first match. -/
def findLongest (vocab : String → Option Nat) (substr : List Char) (start : Nat) :
    List Nat → Option (Option (Nat × Nat))
  | [] => some none
  | e :: rest =>
    if e < start then none
    else
      match byteTake substr (e - start) with
      | none => none
      | some key =>
        match vocab (String.mk key) with
        | some idx => some (some (idx, e))
        | none => findLongest vocab substr start rest

/-- The `'a: while start < token.len()` loop of `WordPiece::tokenize`
(src/tokenizers/src/models/wordpiece/mod.rs lines 233-261).  On a match the emitted
token's value is the whole `substr` (the source moves the entire `Cow` into the token)
and `start` becomes the matched end; on no match the unknown token is emitted with the
word's whole offsets and `start` is incremented.  `fuel` bounds the iteration count;
any terminating run of the source needs at most `utf8Len token + 1` iterations. -/
def wpWordLoop (wp : WordPiece) (token : List Char) (initialOffsets : Nat × Nat)
    (wordIndex : Nat) (charsVec : List Nat) :
    Nat → Nat → List Token → Except WpError (List Token)
  | 0, _, _ => .error .outOfFuel
  | fuel + 1, start, acc =>
    if start < utf8Len token then
      match byteDrop token start with
      | none => .error .panicked
      | some rest =>
        let substr := if start = 0 then rest else wp.continuingSubwordPrefix.data ++ rest
        match findLongest wp.vocab substr start charsVec.reverse with
        | none => .error .panicked
        | some (some (idx, e)) =>
          wpWordLoop wp token initialOffsets wordIndex charsVec fuel e
            (acc ++ [⟨idx, String.mk substr, (initialOffsets.1 + start, initialOffsets.1 + e),
              wordIndex⟩])
        | some none =>
          match wp.vocab wp.unkToken with
          | none => .error .missingUnkToken
          | some uid =>
            wpWordLoop wp token initialOffsets wordIndex charsVec fuel (start + 1)
              (acc ++ [⟨uid, wp.unkToken, initialOffsets, wordIndex⟩])
    else .ok acc

/-- Per-word body of `WordPiece::tokenize` (src/tokenizers/src/models/wordpiece/mod.rs
lines 215-261): the `max_input_chars_per_word` guard, then the matching loop. -/
def tokenizeWord (wp : WordPiece) (wordIndex : Nat) (token : String)
    (initialOffsets : Nat × Nat) : Except WpError (List Token) :=
  let cs := token.data
  if cs.length > wp.maxInputCharsPerWord then
    match wp.vocab wp.unkToken with
    | none => .error .missingUnkToken
    | some uid => .ok [⟨uid, wp.unkToken, initialOffsets, wordIndex⟩]
  else
    wpWordLoop wp cs initialOffsets wordIndex (charStartsAux cs 0 ++ [utf8Len cs])
      (utf8Len cs + 1) 0 []

/-- The `for (index, (token, initial_offsets)) in sentence` loop of
`WordPiece::tokenize`, starting at word index `idx`; errors propagate immediately. -/
def tokenizeFrom (wp : WordPiece) (idx : Nat) :
    List (String × (Nat × Nat)) → Except WpError (List Token)
  | [] => .ok []
  | (token, offs) :: rest =>
    match tokenizeWord wp idx token offs with
    | .error e => .error e
    | .ok ts =>
      match tokenizeFrom wp (idx + 1) rest with
      | .error e => .error e
      | .ok rs => .ok (ts ++ rs)

/-- `WordPiece::tokenize` (src/tokenizers/src/models/wordpiece/mod.rs lines 212-265). -/
def WordPiece.tokenize (wp : WordPiece) (sentence : List (String × (Nat × Nat))) :
    Except WpError (List Token) :=
  tokenizeFrom wp 0 sentence

/-- The vocabulary of spec scenarios S3/S4. -/
def s3Vocab : String → Option Nat := fun s =>
  if s = "un" then some 0
  else if s = "##aff" then some 1
  else if s = "##able" then some 2
  else if s = "[UNK]" then some 3
  else none

/-- The WordPiece model of spec scenarios S3/S4. -/
def s3WordPiece : WordPiece := ⟨s3Vocab, "[UNK]", "##", 100⟩

/-- A WordPiece model with `max_input_chars_per_word = 2`, for the long-word path. -/
def wpTinyMax : WordPiece := ⟨s3Vocab, "[UNK]", "##", 2⟩

/-- A two-entry vocabulary exhibiting the `end - start` underflow. -/
def abVocab : String → Option Nat := fun s =>
  if s = "a" then some 0
  else if s = "[UNK]" then some 1
  else none

/-- WordPiece model over `abVocab`. -/
def abWordPiece : WordPiece := ⟨abVocab, "[UNK]", "##", 100⟩

/- ===== BPE cache (src/tokenizers/src/models/bpe/cache.rs) =====

`Cache` holds `map: RwLock<HashMap<K, V>>` and a `capacity`.  The HashMap is modelled
as an association list without duplicate keys; `try_read`/`try_write` acquisition is
made explicit: each operation takes the outcome of its lock attempts as a Boolean
(`true` = the try-lock succeeded), covering every interleaving allowed by the code. -/

/-- State of a `Cache`: the entries of the inner HashMap and the fixed capacity. -/
structure CacheState (K V : Type) where
  entries : List (K × V)
  capacity : Nat
deriving DecidableEq

/-- `HashMap::insert`: replace the value under an existing key, otherwise add a new
entry. -/
def mapInsert {K V : Type} [DecidableEq K] (m : List (K × V)) (k : K) (v : V) :
    List (K × V) :=
  if m.any (fun p => decide (p.1 = k)) then
    m.map (fun p => if p.1 = k then (k, v) else p)
  else m ++ [(k, v)]

/-- `Cache::new(capacity)`: an empty map with the given capacity. -/
def Cache.new {K V : Type} (capacity : Nat) : CacheState K V := ⟨[], capacity⟩

/-- The insertion loop of `Cache::set_values` (cache.rs lines 142-148): for each pair
whose value is present, stop as soon as the map is at capacity, otherwise insert. -/
def setLoop {K V : Type} [DecidableEq K] (capacity : Nat) :
    List (K × V) → List (K × V) → List (K × V)
  | m, [] => m
  | m, (k, v) :: rest =>
    if m.length ≥ capacity then m else setLoop capacity (mapInsert m k v) rest

/-- `Cache::set_values` (cache.rs lines 123-150).  `readLockOk`/`writeLockOk` are the
outcomes of the `try_read`/`try_write` attempts; a failed attempt drops the update, as
does the read-handle capacity pre-check. -/
def Cache.set_values {K V : Type} [DecidableEq K] (c : CacheState K V)
    (readLockOk writeLockOk : Bool) (keys : List K) (values : List (Option V)) :
    CacheState K V :=
  if !readLockOk then c
  else if c.entries.length ≥ c.capacity then c
  else if !writeLockOk then c
  else
    { c with
      entries :=
        setLoop c.capacity c.entries
          ((keys.zip values).filterMap fun kv => kv.2.map fun v => (kv.1, v)) }

/-- `Cache::get_values` (cache.rs lines 110-121): under a read handle, look every key
up; without one, report `none` ("treat all as misses").  The state is unchanged. -/
def Cache.get_values {K V : Type} [DecidableEq K] (c : CacheState K V)
    (readLockOk : Bool) (keys : List K) : Option (List (Option V)) :=
  if readLockOk then
    some (keys.map fun k => (c.entries.find? fun p => decide (p.1 = k)).map Prod.snd)
  else none

/-- `Cache::clear` (cache.rs lines 106-108): blocking write lock, empty the map. -/
def Cache.clear {K V : Type} (c : CacheState K V) : CacheState K V :=
  { c with entries := [] }

/-- A call against the cache, with the outcomes of its try-lock attempts. -/
inductive CacheOp (K V : Type) where
  | set (readLockOk writeLockOk : Bool) (keys : List K) (values : List (Option V))
  | get (readLockOk : Bool) (keys : List K)
  | clear

/-- Run a sequence of cache calls from a starting state. -/
def runCacheOps {K V : Type} [DecidableEq K] (c : CacheState K V) :
    List (CacheOp K V) → CacheState K V
  | [] => c
  | op :: rest =>
    let c' :=
      match op with
      | .set ro wo ks vs => Cache.set_values c ro wo ks vs
      | .get _ _ => c
      | .clear => Cache.clear c
    runCacheOps c' rest

/- ===== Encoding, padding, truncation =====

tokenizer/encoding.rs, utils/padding.rs and utils/truncation.rs are not among the
available sources; they are modelled from the spec (§3 Encoding, §4.7). -/

/-- Modelled from the spec: the parallel vectors of an `Encoding` (§3).  tokenizer/
encoding.rs is not among the available sources. -/
structure EncodingData where
  ids : List Nat
  typeIds : List Nat
  tokens : List String
  words : List (Option Nat)
  offsets : List (Nat × Nat)
  specialTokensMask : List Nat
  attentionMask : List Nat
deriving DecidableEq

/-- Modelled from the spec: an `Encoding` is its parallel vectors plus the overflowing
sibling encodings produced by truncation (§3). -/
structure Encoding where
  data : EncodingData
  overflowing : List EncodingData
deriving DecidableEq

/-- Length of an encoding: the common length of its parallel vectors. -/
def encLen (e : Encoding) : Nat := e.data.ids.length

/-- Modelled from the spec: merge by concatenating all parallel vectors (§3). -/
def dataMerge (a b : EncodingData) : EncodingData :=
  ⟨a.ids ++ b.ids, a.typeIds ++ b.typeIds, a.tokens ++ b.tokens, a.words ++ b.words,
    a.offsets ++ b.offsets, a.specialTokensMask ++ b.specialTokensMask,
    a.attentionMask ++ b.attentionMask⟩

/-- Modelled from the spec: `Encoding::merge_with` without the `growing_offsets`
option (§3); overflowing lists are concatenated. -/
def Encoding.merge_with (a b : Encoding) : Encoding :=
  ⟨dataMerge a.data b.data, a.overflowing ++ b.overflowing⟩

/-- Modelled from the spec: `PaddingStrategy ∈ {BatchLongest, Fixed(n)}` (§4.7). -/
inductive PaddingStrategy where
  | batchLongest
  | fixed (n : Nat)
deriving DecidableEq

/-- Modelled from the spec: padding direction (§4.7). -/
inductive PaddingDirection where
  | left
  | right
deriving DecidableEq

/-- Modelled from the spec: `PaddingParams` (§4.7). -/
structure PaddingParams where
  strategy : PaddingStrategy
  direction : PaddingDirection
  padId : Nat
  padTypeId : Nat
  padToken : String
deriving DecidableEq

/-- Pad one parallel vector with `n` copies of `x` on the configured side. -/
def padSide {α : Type} (d : PaddingDirection) (n : Nat) (x : α) (l : List α) : List α :=
  match d with
  | .right => l ++ List.replicate n x
  | .left => List.replicate n x ++ l

/-- Modelled from the spec: pad one encoding's vectors to `target` entries; padded
positions get `attention_mask = 0`, `special_tokens_mask = 1`, offsets `(0, 0)`, word
`none` (§4.7). -/
def padData (p : PaddingParams) (target : Nat) (e : EncodingData) : EncodingData :=
  let n := target - e.ids.length
  ⟨padSide p.direction n p.padId e.ids, padSide p.direction n p.padTypeId e.typeIds,
    padSide p.direction n p.padToken e.tokens, padSide p.direction n none e.words,
    padSide p.direction n (0, 0) e.offsets, padSide p.direction n 1 e.specialTokensMask,
    padSide p.direction n 0 e.attentionMask⟩

/-- Modelled from the spec: `pad_encodings` (utils/padding.rs is not among the
available sources).  The target is the batch's longest length under `BatchLongest`,
the fixed length otherwise; every encoding, including each overflowing entry, is
padded to it (§4.7). -/
def pad_encodings (p : PaddingParams) (encs : List Encoding) : List Encoding :=
  let target :=
    match p.strategy with
    | .fixed n => n
    | .batchLongest => (encs.map encLen).foldr max 0
  encs.map fun e => ⟨padData p target e.data, e.overflowing.map (padData p target)⟩

/-- Modelled from the spec: `TruncationStrategy` (§4.7). -/
inductive TruncationStrategy where
  | longestFirst
  | onlyFirst
  | onlySecond
deriving DecidableEq

/-- Modelled from the spec: `TruncationParams` (§4.7); `max_length` is a usize. -/
structure TruncationParams where
  max_length : Nat
  strategy : TruncationStrategy
  stride : Nat
deriving DecidableEq

/-- Errors of the orchestrator pipeline.  `panicked` models a Rust panic (usize
subtraction overflow); the others are modelled from the spec's truncation errors
(§4.7, §7). -/
inductive TokError where
  | panicked
  | sequenceTooShort
  | secondSequenceMissing
deriving DecidableEq

/-- Truncate the parallel vectors of an encoding to its first `n` entries. -/
def dataTake (n : Nat) (d : EncodingData) : EncodingData :=
  ⟨d.ids.take n, d.typeIds.take n, d.tokens.take n, d.words.take n, d.offsets.take n,
    d.specialTokensMask.take n, d.attentionMask.take n⟩

/-- Truncate an encoding's own vectors to `n` entries. -/
def encTake (n : Nat) (e : Encoding) : Encoding := ⟨dataTake n e.data, e.overflowing⟩

/-- Modelled from the spec: the `LongestFirst` loop — repeatedly drop one token from
the tail of whichever side is longer until the total fits (§4.7).  Returns the target
lengths of the two sides; the fuel is the total length, enough for the loop to finish. -/
def longestFirstLoop : Nat → Nat → Nat → Nat → Nat × Nat
  | 0, _, a, b => (a, b)
  | fuel + 1, maxLen, a, b =>
    if a + b ≤ maxLen then (a, b)
    else if b ≤ a then longestFirstLoop fuel maxLen (a - 1) b
    else longestFirstLoop fuel maxLen a (b - 1)

/-- Modelled from the spec: `truncate_encodings` (utils/truncation.rs is not among the
available sources).  `LongestFirst` drops from the tail of the longer side until the
total length is at most `max_length`; `OnlyFirst`/`OnlySecond` drop from the
designated side only and fail with `SequenceTooShort` when the other side alone
exceeds the budget (§4.7).  The stride/overflow re-emission the spec describes is not
modelled; no claim below depends on it. -/
def truncate_encodings (encoding : Encoding) (pair : Option Encoding)
    (params : TruncationParams) : Except TokError (Encoding × Option Encoding) :=
  let lenA := encLen encoding
  let lenB := match pair with | some p => encLen p | none => 0
  if lenA + lenB ≤ params.max_length then .ok (encoding, pair)
  else
    match params.strategy with
    | .longestFirst =>
      let t := longestFirstLoop (lenA + lenB) params.max_length lenA lenB
      .ok (encTake t.1 encoding, pair.map (encTake t.2))
    | .onlyFirst =>
      if lenB > params.max_length then .error .sequenceTooShort
      else .ok (encTake (params.max_length - lenB) encoding, pair)
    | .onlySecond =>
      match pair with
      | none => .error .secondSequenceMissing
      | some p =>
        if lenA > params.max_length then .error .sequenceTooShort
        else .ok (encoding, some (encTake (params.max_length - lenA) p))

/-- A `PostProcessor` trait object (src/tokenizers/src/tokenizer/mod.rs lines 76-86):
its `added_tokens` count and its `process` function. -/
structure PostProcessorM where
  added_tokens : Bool → Nat
  process : Encoding → Option Encoding → Bool → Except TokError Encoding

/-- `PostProcessor::default_process` (src/tokenizers/src/tokenizer/mod.rs lines
88-101): no pair — unchanged; with a pair — merge by concatenation. -/
def default_process (encoding : Encoding) (pair : Option Encoding) (_add : Bool) :
    Except TokError Encoding :=
  match pair with
  | none => .ok encoding
  | some p => .ok (encoding.merge_with p)

/-- `Tokenizer::post_process` (src/tokenizers/src/tokenizer/mod.rs lines 830-876).
Step 1 truncates: with a configured post-processor, `add_special_tokens` and
`n_added_tokens > 0`, the source computes `trunc.max_length - n_added_tokens` on
usize; when `max_length < n_added_tokens` that subtraction overflows, which is a
panic, modelled as `.error .panicked`.  Step 2 runs the processor (or
`default_process`), step 3 pads the single result. -/
def post_process (truncation : Option TruncationParams)
    (processor : Option PostProcessorM) (padding : Option PaddingParams)
    (encoding : Encoding) (pair_encoding : Option Encoding)
    (add_special_tokens : Bool) : Except TokError Encoding :=
  let truncated : Except TokError (Encoding × Option Encoding) :=
    match truncation with
    | none => Except.ok (encoding, pair_encoding)
    | some trunc =>
      let n_added_tokens :=
        match processor with
        | some p => p.added_tokens pair_encoding.isSome
        | none => 0
      if add_special_tokens && decide (n_added_tokens > 0) then
        if trunc.max_length < n_added_tokens then .error .panicked
        else
          truncate_encodings encoding pair_encoding
            { trunc with max_length := trunc.max_length - n_added_tokens }
      else truncate_encodings encoding pair_encoding trunc
  match truncated with
  | .error e => .error e
  | .ok (encoding, pair_encoding) =>
    let processed :=
      match processor with
      | some p => p.process encoding pair_encoding add_special_tokens
      | none => default_process encoding pair_encoding add_special_tokens
    match processed with
    | .error e => .error e
    | .ok final_encoding =>
      match padding with
      | none => .ok final_encoding
      | some params => .ok ((pad_encodings params [final_encoding]).headD final_encoding)

/- ===== encode_batch (src/tokenizers/src/tokenizer/mod.rs lines 649-665) ===== -/

/-- `collect::<Result<Vec<_>>>` over the per-input results, in input order with
fail-fast error propagation. -/
def collectResults {α β ε : Type} (f : α → Except ε β) : List α → Except ε (List β)
  | [] => .ok []
  | x :: xs =>
    match f x with
    | .error e => .error e
    | .ok y =>
      match collectResults f xs with
      | .error e => .error e
      | .ok ys => .ok (y :: ys)

/-- `Tokenizer::encode_batch` (src/tokenizers/src/tokenizer/mod.rs lines 649-665):
encode every input with the single-sequence `encode` (here a parameter, as the source
calls the opaque `self.encode`), then, when padding is configured, pad the whole
batch. -/
def encode_batch {α : Type} (encode : α → Except TokError Encoding)
    (padding : Option PaddingParams) (inputs : List α) :
    Except TokError (List Encoding) :=
  match collectResults encode inputs with
  | .error e => .error e
  | .ok encodings =>
    match padding with
    | some params => .ok (pad_encodings params encodings)
    | none => .ok encodings

/- ===== decode (src/tokenizers/src/tokenizer/mod.rs lines 668-686) ===== -/

/-- Modelled from the spec: `AddedVocabulary::id_to_token` (§4.2 Lookups) — the
added-vocabulary overlay wins, otherwise the model's reverse vocabulary is consulted.
tokenizer/added_vocabulary.rs is not among the available sources. -/
def added_id_to_token (overlay modelVocabR : Nat → Option String) (id : Nat) :
    Option String :=
  match overlay id with
  | some t => some t
  | none => modelVocabR id

/-- `Tokenizer::decode` (src/tokenizers/src/tokenizer/mod.rs lines 668-686): each id
is translated through `added_vocabulary.id_to_token`, the result is kept unless
`skip_special_tokens` and the string is a registered special token, and the surviving
strings are given to the decoder, or joined with a single space when none is set. -/
def Tokenizer.decode (overlay modelVocabR : Nat → Option String)
    (is_special_token : String → Bool) (decoder : Option (List String → String))
    (ids : List Nat) (skip_special_tokens : Bool) : String :=
  let tokens := ids.filterMap fun id =>
    Option.filter (fun token => !skip_special_tokens || !is_special_token token)
      (added_id_to_token overlay modelVocabR id)
  match decoder with
  | some d => d tokens
  | none => String.intercalate " " tokens

/-- The spec's description of decoding (§4.1): translate ids to token strings with the
overlay winning over the model, then, if `skip_special_tokens`, drop the strings that
are special tokens, then join with a single space. -/
def decodeSpec (overlay modelVocabR : Nat → Option String)
    (is_special_token : String → Bool) (ids : List Nat)
    (skip_special_tokens : Bool) : String :=
  let translated := ids.filterMap (added_id_to_token overlay modelVocabR)
  let kept :=
    if skip_special_tokens then translated.filter fun t => !is_special_token t
    else translated
  String.intercalate " " kept

/- ===== Metaspace (src/tokenizers/src/pre_tokenizers/metaspace.rs) ===== -/

/-- Rust's `char::is_whitespace`: the Unicode White_Space property. -/
def rustIsWhitespace (c : Char) : Bool :=
  [0x09, 0x0A, 0x0B, 0x0C, 0x0D, 0x20, 0x85, 0xA0, 0x1680, 0x2000, 0x2001, 0x2002,
    0x2003, 0x2004, 0x2005, 0x2006, 0x2007, 0x2008, 0x2009, 0x200A, 0x2028, 0x2029,
    0x202F, 0x205F, 0x3000].contains c.toNat

/-- The `Metaspace` pre-tokenizer's configuration. -/
structure Metaspace where
  replacement : Char
  add_prefix_space : Bool

/-- Whether a string starts with a space (Rust `starts_with(' ')`). -/
def startsWithSpace : List Char → Bool
  | ' ' :: _ => true
  | _ => false

/-- One step of the `for_each` loop of `Metaspace::pre_tokenize` (metaspace.rs lines
37-48): on whitespace, flush the current word (if non-empty) with offsets
`(offset - word.len(), offset)` and restart the word as the replacement character;
otherwise extend the word.  `offset` counts characters. -/
def metaspaceStep (repl : Char) (st : List (String × (Nat × Nat)) × List Char × Nat)
    (c : Char) : List (String × (Nat × Nat)) × List Char × Nat :=
  let words := st.1
  let word := st.2.1
  let offset := st.2.2
  if rustIsWhitespace c then
    let words' :=
      if word.isEmpty then words
      else words ++ [(String.mk word, (offset - word.length, offset))]
    (words', [repl], offset + 1)
  else (words, word ++ [c], offset + 1)

/-- `Metaspace::pre_tokenize` (metaspace.rs lines 29-55): optionally prepend a space,
fold the step over the characters, and flush the final word. -/
def Metaspace.pre_tokenize (m : Metaspace) (normalized : String) :
    List (String × (Nat × Nat)) :=
  let s :=
    if m.add_prefix_space && !startsWithSpace normalized.data then ' ' :: normalized.data
    else normalized.data
  let st := s.foldl (metaspaceStep m.replacement) ([], [], 0)
  if st.2.1.isEmpty then st.1
  else st.1 ++ [(String.mk st.2.1, (st.2.2 - st.2.1.length, st.2.2))]

/- ===== Tokenizer deserialization
   (src/tokenizers/src/tokenizer/serialization.rs lines 82-158) ===== -/

/-- A JSON value. -/
inductive Json where
  | null
  | bool (b : Bool)
  | num (n : Int)
  | str (s : String)
  | arr (xs : List Json)
  | obj (fields : List (String × Json))

/-- Deserialization failures.  `protocolViolation` is serde_json's
"expected `,` or `}`" parse error: it arises when a `next_key` call finds the
previous entry's value still unconsumed. -/
inductive DeError where
  | unknownVersion (v : String)
  | typeMismatch
  | protocolViolation
deriving DecidableEq

/-- The result of `TokenizerVisitor::visit_map`: which fields of the tokenizer were
set, each holding the raw JSON it consumed.  The typed parsing of each field and the
post-loop added-token registration (serialization.rs lines 134-155) do not bear on
the claims and are not modelled further. -/
structure TokenizerDe where
  truncation : Option Json
  padding : Option Json
  added_tokens : Option Json
  normalizer : Option Json
  pre_tokenizer : Option Json
  post_processor : Option Json
  decoder : Option Json
  model : Option Json

/-- The tokenizer before any field is visited. -/
def TokenizerDe.init : TokenizerDe := ⟨none, none, none, none, none, none, none, none⟩

/-- `Option::Some`-guarded setters use the value only when it is not `null`
(serialization.rs `if let Some(x) = map.next_value()?`). -/
def jsonOpt (v : Json) : Option Json :=
  match v with
  | .null => none
  | _ => some v

/-- One arm of the `match key.as_ref()` in `visit_map` (serialization.rs lines
89-129).  `.ok (some t')` means the arm consumed the value (`map.next_value`) and
updated the tokenizer; `.ok none` is the `_ => {}` arm, which consumes nothing. -/
def visitStep (t : TokenizerDe) (key : String) (v : Json) :
    Except DeError (Option TokenizerDe) :=
  if key = "version" then
    match v with
    | .str s => if s = "1.0" then .ok (some t) else .error (.unknownVersion s)
    | _ => .error .typeMismatch
  else if key = "truncation" then .ok (some { t with truncation := jsonOpt v })
  else if key = "padding" then .ok (some { t with padding := jsonOpt v })
  else if key = "added_tokens" then .ok (some { t with added_tokens := some v })
  else if key = "normalizer" then
    match jsonOpt v with
    | some n => .ok (some { t with normalizer := some n })
    | none => .ok (some t)
  else if key = "pre_tokenizer" then
    match jsonOpt v with
    | some p => .ok (some { t with pre_tokenizer := some p })
    | none => .ok (some t)
  else if key = "model" then .ok (some { t with model := some v })
  else if key = "decoder" then
    match jsonOpt v with
    | some d => .ok (some { t with decoder := some d })
    | none => .ok (some t)
  else if key = "post_processor" then
    match jsonOpt v with
    | some p => .ok (some { t with post_processor := some p })
    | none => .ok (some t)
  else .ok none

/-- The `while let Some(key) = map.next_key()?` loop of `visit_map` over a JSON
object's entries.  serde_json's `MapAccess::next_key` fails with "expected `,` or
`}`" when the previous value was left unconsumed, which is exactly what follows the
`_ => {}` arm — the loop always issues another `next_key` (even at the last entry,
to observe the end of the object), so an unconsumed value always surfaces as a
`protocolViolation` error. -/
def visitMap (t : TokenizerDe) : List (String × Json) → Except DeError TokenizerDe
  | [] => .ok t
  | (key, v) :: rest =>
    match visitStep t key v with
    | .error e => .error e
    | .ok (some t') => visitMap t' rest
    | .ok none => .error .protocolViolation

/-- `Tokenizer` deserialization of a whole JSON document (`visit_map` applied to the
top-level object). -/
def tokenizerFromJson (doc : List (String × Json)) : Except DeError TokenizerDe :=
  visitMap TokenizerDe.init doc

/- ===== Concrete instances used by the theorems below ===== -/

/-- A one-token encoding (as produced for the input `0` by `encBatchEncode`). -/
def encOne : Encoding :=
  ⟨⟨[10], [0], ["a"], [some 0], [(0, 1)], [0], [1]⟩, []⟩

/-- A two-token encoding (as produced for the input `1` by `encBatchEncode`). -/
def encTwo : Encoding :=
  ⟨⟨[20, 21], [0, 0], ["b", "c"], [some 0, some 1], [(0, 1), (1, 2)], [0, 0], [1, 1]⟩, []⟩

/-- A single-sequence encoder producing `encOne` for `0` and `encTwo` otherwise; any
model whose encodings of two inputs have different lengths realizes this shape. -/
def encBatchEncode : Nat → Except TokError Encoding := fun n =>
  if n = 0 then .ok encOne else .ok encTwo

/-- Batch-longest right padding with `pad_id = 0`. -/
def padParamsEx : PaddingParams := ⟨.batchLongest, .right, 0, 0, "[PAD]"⟩

/-- `encOne` after being padded to the batch target length 2. -/
def encOnePadded : Encoding :=
  ⟨⟨[10, 0], [0, 0], ["a", "[PAD]"], [some 0, none], [(0, 1), (0, 0)], [0, 1], [1, 0]⟩, []⟩

/-- Truncation to `max_length = 1` (smaller than the two special tokens a BERT-style
processor adds to a single sequence). -/
def truncSmall : TruncationParams := ⟨1, .longestFirst, 0⟩

/-- A BERT-style post-processor reporting 2 added tokens for a single sequence and 3
for a pair; its `process` is irrelevant to the truncation step. -/
def procBertLike : PostProcessorM :=
  ⟨fun is_pair => if is_pair then 3 else 2, fun e _ _ => .ok e⟩

/-- A three-token encoding fed to `post_process`. -/
def encThree : Encoding :=
  ⟨⟨[1, 2, 3], [0, 0, 0], ["x", "y", "z"], [some 0, some 1, some 2],
    [(0, 1), (1, 2), (2, 3)], [0, 0, 0], [1, 1, 1]⟩, []⟩

/- ===================== Theorems ===================== -/

/- Helper lemmas (shared). -/

theorem mapInsert_length {K V : Type} [DecidableEq K] (m : List (K × V)) (k : K)
    (v : V) : (mapInsert m k v).length ≤ m.length + 1 := by
  unfold mapInsert
  split
  · simp only [List.length_map]
    exact Nat.le_succ m.length
  · simp

theorem setLoop_length {K V : Type} [DecidableEq K] (capacity : Nat)
    (kvs : List (K × V)) (m : List (K × V)) (hm : m.length ≤ capacity) :
    (setLoop capacity m kvs).length ≤ capacity := by
  induction kvs generalizing m with
  | nil =>
    simp only [setLoop]
    exact hm
  | cons kv rest ih =>
    obtain ⟨k, v⟩ := kv
    rw [setLoop]
    split
    · exact hm
    · apply ih
      have hlt : m.length < capacity := Nat.lt_of_not_le (by assumption)
      exact Nat.le_trans (mapInsert_length m k v) hlt

theorem set_values_length {K V : Type} [DecidableEq K] (c : CacheState K V)
    (ro wo : Bool) (ks : List K) (vs : List (Option V))
    (h : c.entries.length ≤ c.capacity) :
    (Cache.set_values c ro wo ks vs).entries.length ≤
      (Cache.set_values c ro wo ks vs).capacity := by
  unfold Cache.set_values
  split
  · exact h
  · split
    · exact h
    · split
      · exact h
      · exact setLoop_length _ _ _ (Nat.le_of_lt (Nat.lt_of_not_le (by assumption)))

theorem set_values_capacity {K V : Type} [DecidableEq K] (c : CacheState K V)
    (ro wo : Bool) (ks : List K) (vs : List (Option V)) :
    (Cache.set_values c ro wo ks vs).capacity = c.capacity := by
  unfold Cache.set_values
  split
  · rfl
  · split
    · rfl
    · split
      · rfl
      · rfl

theorem runCacheOps_inv {K V : Type} [DecidableEq K] (ops : List (CacheOp K V))
    (c : CacheState K V) (h : c.entries.length ≤ c.capacity) :
    (runCacheOps c ops).entries.length ≤ (runCacheOps c ops).capacity := by
  induction ops generalizing c with
  | nil => exact h
  | cons op rest ih =>
    rw [runCacheOps.eq_def]
    cases op with
    | set ro wo ks vs => exact ih _ (set_values_length c ro wo ks vs h)
    | get ro ks => exact ih _ h
    | clear => exact ih _ (by simp [Cache.clear])

theorem runCacheOps_capacity {K V : Type} [DecidableEq K] (ops : List (CacheOp K V))
    (c : CacheState K V) : (runCacheOps c ops).capacity = c.capacity := by
  induction ops generalizing c with
  | nil => rfl
  | cons op rest ih =>
    rw [runCacheOps.eq_def]
    cases op with
    | set ro wo ks vs => rw [ih, set_values_capacity]
    | get ro ks => exact ih c
    | clear => rw [ih]; rfl

theorem opt_filter_none {α : Type} (p : α → Bool) :
    Option.filter p none = none := rfl

theorem opt_filter_some {α : Type} (p : α → Bool) (a : α) :
    Option.filter p (some a) = if p a then some a else none := rfl

theorem opt_filter_true {α : Type} (o : Option α) :
    Option.filter (fun _ => true) o = o := by
  cases o <;> simp [Option.filter]

theorem filterMap_opt_filter {α β : Type} (f : α → Option β) (p : β → Bool)
    (l : List α) :
    (l.filterMap fun x => Option.filter p (f x)) = (l.filterMap f).filter p := by
  induction l with
  | nil => rfl
  | cons x xs ih =>
    cases hfx : f x with
    | none =>
      simp only [List.filterMap_cons, hfx, opt_filter_none]
      exact ih
    | some y =>
      cases hpy : p y with
      | true =>
        simp only [List.filterMap_cons, hfx, opt_filter_some, hpy, if_true,
          List.filter_cons, ih]
      | false =>
        simp only [List.filterMap_cons, hfx, opt_filter_some, hpy, if_false,
          List.filter_cons, ih]
        simp

theorem collectResults_length {α β ε : Type} (f : α → Except ε β) (xs : List α)
    (ys : List β) (h : collectResults f xs = .ok ys) : ys.length = xs.length := by
  induction xs generalizing ys with
  | nil => cases h; rfl
  | cons x xs ih =>
    unfold collectResults at h
    cases hfx : f x with
    | error e => rw [hfx] at h; cases h
    | ok y =>
      rw [hfx] at h
      cases hrest : collectResults f xs with
      | error e => rw [hrest] at h; cases h
      | ok ys' =>
        rw [hrest] at h
        cases h
        simp [ih ys' hrest]

theorem collectResults_get {α β ε : Type} (f : α → Except ε β) (xs : List α)
    (ys : List β) (h : collectResults f xs = .ok ys) :
    ∀ (i : Nat) (x : α) (ei : β), xs[i]? = some x → f x = .ok ei →
      ys[i]? = some ei := by
  induction xs generalizing ys with
  | nil => intro i x ei hx; simp at hx
  | cons x xs ih =>
    unfold collectResults at h
    cases hfx : f x with
    | error e => rw [hfx] at h; cases h
    | ok y =>
      rw [hfx] at h
      cases hrest : collectResults f xs with
      | error e => rw [hrest] at h; cases h
      | ok ys' =>
        rw [hrest] at h
        cases h
        intro i z ei hz hfz
        cases i with
        | zero =>
          simp at hz
          subst hz
          rw [hfx] at hfz
          cases hfz
          simp
        | succ n =>
          simp only [List.getElem?_cons_succ] at hz ⊢
          exact ih ys' hrest n z ei hz hfz

/- Claim theorems. -/

/-- C1: on spec scenario S3 — vocabulary `{"un": 0, "##aff": 1, "##able": 2,
"[UNK]": 3}`, continuing subword prefix `"##"`, pre-token `("unaffable", (0, 9))` —
`WordPiece::tokenize` does not return the claimed greedy pieces: it panics.  After
matching `"un"` (but pushing the whole remaining string `"unaffable"` as the value)
and `"##aff"` (pushing value `"##affable"`, offsets `(2, 7)` because the prefix bytes
count towards the advance), the loop reaches `start = 7` with no match, and the
candidate `end = 6` makes `substr[..end-start]` underflow. -/
theorem wordpiece_s3_greedy_panics :
    s3WordPiece.tokenize [("unaffable", (0, 9))] = .error .panicked := rfl

/-- C2: on spec scenario S4 — same vocabulary, pre-token `("unknowable", (0, 10))` —
`WordPiece::tokenize` does not emit a single `[UNK]` spanning the word: it first
matches `"un"` and then, at `start = 2` with no vocabulary prefix matching, the
candidate `end = 1` makes `substr[..end-start]` underflow, a panic.  (The source also
does not stop after an unknown position: it pushes the unk token and continues with
`start += 1`.) -/
theorem wordpiece_s4_unknown_panics :
    s3WordPiece.tokenize [("unknowable", (0, 10))] = .error .panicked := rfl

/-- C3: `WordPiece::tokenize` is not total — the slice index `end - start` does
underflow.  With vocabulary `{"a": 0, "[UNK]": 1}` and pre-token `("ab", (0, 2))`,
`"a"` matches at position 0; at `start = 1` nothing matches, and the candidate
`end = 0` makes `end - start` underflow: the program panics instead of returning a
token list or `MissingUnkToken`. -/
theorem wordpiece_underflow_panics :
    abWordPiece.tokenize [("ab", (0, 2))] = .error .panicked := rfl

/-- C4: when truncation is configured, `add_special_tokens` holds and the processor
reports `n = 2 > 0` added tokens, a `max_length = 1` budget smaller than `n` does not
produce a `TruncationError`: the source computes `trunc.max_length - n_added_tokens`
on usize, which overflows — a panic (debug) or a wrapped huge length that silently
skips truncation (release). -/
theorem post_process_small_budget_panics :
    post_process (some truncSmall) (some procBertLike) none encThree none true =
      .error .panicked := rfl

/-- C5: the cache never exceeds its capacity: (1) after any sequence of `set_values`,
`get_values` and `clear` calls — under every try-lock outcome — a cache created with
capacity `C` holds at most `C` entries; (2) `set_values` on a cache already holding
`capacity` entries changes nothing; (3) with capacity 0 the cache never holds any
entry. -/
theorem cache_capacity_invariant (K V : Type) [DecidableEq K] :
    (∀ (C : Nat) (ops : List (CacheOp K V)),
      (runCacheOps (Cache.new C) ops).entries.length ≤ C) ∧
    (∀ (c : CacheState K V) (ro wo : Bool) (ks : List K) (vs : List (Option V)),
      c.entries.length = c.capacity → Cache.set_values c ro wo ks vs = c) ∧
    (∀ ops : List (CacheOp K V), (runCacheOps (Cache.new 0) ops).entries = []) := by
  refine ⟨?_, ?_, ?_⟩
  · intro C ops
    have h := runCacheOps_inv ops (Cache.new (K := K) (V := V) C) (by simp [Cache.new])
    rwa [runCacheOps_capacity] at h
  · intro c ro wo ks vs hfull
    unfold Cache.set_values
    split
    · rfl
    · split
      · rfl
      · exact absurd (Nat.le_of_eq hfull.symm) (by assumption)
  · intro ops
    have h := runCacheOps_inv ops (Cache.new (K := K) (V := V) 0) (by simp [Cache.new])
    rw [runCacheOps_capacity] at h
    exact List.length_eq_zero.mp (Nat.le_zero.mp h)

/-- Witness for C5: a full one-entry cache rejects an insertion, and a capacity-0
cache stays empty after an insertion attempt. -/
theorem cache_capacity_invariant_witness :
    Cache.set_values (⟨[(1, 2)], 1⟩ : CacheState Nat Nat) true true [5] [some 6] =
      ⟨[(1, 2)], 1⟩ ∧
    (runCacheOps (Cache.new 0) [CacheOp.set true true [1] [some 2]] :
      CacheState Nat Nat).entries = [] :=
  ⟨(cache_capacity_invariant Nat Nat).2.1 ⟨[(1, 2)], 1⟩ true true [5] [some 6] rfl,
   (cache_capacity_invariant Nat Nat).2.2 [CacheOp.set true true [1] [some 2]]⟩

/-- C6 counterexample: with batch-longest padding configured, `encode_batch` does not
return the single-sequence encodings: the batch `[0, 1]` yields a padded first
element `encOnePadded`, while `encode 0` yields the unpadded `encOne`. -/
theorem encode_batch_padding_counterexample :
    encode_batch encBatchEncode (some padParamsEx) [0, 1] =
      .ok [encOnePadded, encTwo] ∧
    encBatchEncode 0 = .ok encOne ∧ encOnePadded ≠ encOne :=
  ⟨rfl, rfl, by decide⟩

/-- C6 (amended): when no padding is configured, `encode_batch` returns one encoding
per input, in input order, each equal to the single-sequence `encode` of that
input. -/
theorem encode_batch_matches_encode_without_padding {α : Type}
    (encode : α → Except TokError Encoding) (inputs : List α) (out : List Encoding)
    (h : encode_batch encode none inputs = .ok out) :
    out.length = inputs.length ∧
      ∀ (i : Nat) (x : α) (ei : Encoding),
        inputs[i]? = some x → encode x = .ok ei → out[i]? = some ei := by
  unfold encode_batch at h
  cases hc : collectResults encode inputs with
  | error e => rw [hc] at h; cases h
  | ok encodings =>
    rw [hc] at h
    cases h
    exact ⟨collectResults_length _ _ _ hc, collectResults_get _ _ _ hc⟩

/-- Witness for the amended C6: without padding the batch `[0, 1]` returns
`[encOne, encTwo]`, whose first element is `encode 0`'s encoding. -/
theorem encode_batch_matches_encode_without_padding_witness :
    ([encOne, encTwo] : List Encoding).length = ([0, 1] : List Nat).length ∧
      ([encOne, encTwo] : List Encoding)[0]? = some encOne :=
  have h := encode_batch_matches_encode_without_padding encBatchEncode [0, 1]
    [encOne, encTwo] rfl
  ⟨h.1, h.2 0 0 encOne rfl rfl⟩

/-- C7: for a pre-token whose character count exceeds `max_input_chars_per_word`,
`WordPiece::tokenize` emits exactly one token carrying the unk token's value and the
word's whole offsets, and fails with `MissingUnkToken` exactly when the unk token is
not in the vocabulary. -/
theorem wordpiece_long_word_unk (wp : WordPiece) (token : String) (offs : Nat × Nat)
    (h : token.data.length > wp.maxInputCharsPerWord) :
    wp.tokenize [(token, offs)] =
      match wp.vocab wp.unkToken with
      | none => .error .missingUnkToken
      | some uid => .ok [⟨uid, wp.unkToken, offs, 0⟩] := by
  unfold WordPiece.tokenize tokenizeFrom tokenizeWord
  simp only [if_pos h]
  cases wp.vocab wp.unkToken with
  | none => rfl
  | some uid => rfl

/-- Witness for C7: with `max_input_chars_per_word = 2`, the three-character word
`"abc"` becomes one `[UNK]` token spanning `(5, 8)`. -/
theorem wordpiece_long_word_unk_witness :
    WordPiece.tokenize wpTinyMax [("abc", (5, 8))] = .ok [⟨3, "[UNK]", (5, 8), 0⟩] :=
  (wordpiece_long_word_unk wpTinyMax "abc" (5, 8) (by decide)).trans rfl

/-- C8: with no decoder configured, `Tokenizer::decode` equals the spec's
description — translate every id through the overlay-first lookup, drop special
tokens when `skip_special_tokens` is set, and join the survivors with a single
space. -/
theorem decode_skip_special_join (overlay modelVocabR : Nat → Option String)
    (is_special_token : String → Bool) (ids : List Nat)
    (skip_special_tokens : Bool) :
    Tokenizer.decode overlay modelVocabR is_special_token none ids
        skip_special_tokens =
      decodeSpec overlay modelVocabR is_special_token ids skip_special_tokens := by
  unfold Tokenizer.decode decodeSpec
  cases skip_special_tokens with
  | false => simp [opt_filter_true]
  | true => simp [filterMap_opt_filter]

/-- C9: Metaspace pre-tokenization with replacement `▁` and `add_prefix_space` on
spec scenario S2: `"Hey friend!"` yields two pre-tokens, and `"Hey   friend!"` turns
each whitespace character beyond a run's first separator into its own
single-replacement pre-token. -/
theorem metaspace_pre_tokenize_scenarios :
    Metaspace.pre_tokenize ⟨'▁', true⟩ "Hey friend!" =
      [("▁Hey", (0, 4)), ("▁friend!", (4, 12))] ∧
    Metaspace.pre_tokenize ⟨'▁', true⟩ "Hey   friend!" =
      [("▁Hey", (0, 4)), ("▁", (4, 5)), ("▁", (5, 6)), ("▁friend!", (6, 14))] :=
  ⟨rfl, rfl⟩

/-- C10: unknown top-level keys are not ignored — the `_ => {}` arm leaves the key's
value unconsumed, so the next `next_key` call fails: a document with the valid
version `"1.0"` and one unknown key errors out.  A wrong version also errors, as
claimed. -/
theorem deserialize_unknown_key_rejected :
    tokenizerFromJson [("version", .str "1.0"), ("foo", .null)] =
      .error .protocolViolation ∧
    tokenizerFromJson [("version", .str "2.0")] = .error (.unknownVersion "2.0") :=
  ⟨rfl, rfl⟩
